import Mathlib

/-!
Verification of the uwu command-delivery client (src/main.rs, src/id64.rs).

The development shallowly embeds the two source files:
the base64url correlation-id codec of src/id64.rs (together with a model of
the third-party base64_url crate it calls), the UDP send-with-retry exchange of
send_reliable_blocking, the debounced watch loop, and the subcommand
dispatcher of main.  Machine integers are Nat with explicit bounds
(bytes < 256, u64 < 2^64); fallible operations return Except or Option.
-/

namespace Uwu

/-! Model of the base64_url crate (URL-safe alphabet, no padding), as used by
src/id64.rs for encoding and decoding correlation ids. -/

/-- Code point of the base64url digit for a sextet value: A-Z, a-z, 0-9, -, _. -/
def b64code (n : Nat) : Nat :=
  if n < 26 then 65 + n
  else if n < 52 then 97 + (n - 26)
  else if n < 62 then 48 + (n - 52)
  else if n = 62 then 45
  else 95

/-- Character of the base64url digit for a sextet value. -/
def b64char (n : Nat) : Char := Char.ofNat (b64code n)

/-- Inverse alphabet lookup: the sextet value of a character, or none when the
character is outside the base64url alphabet. -/
def charToSextet (c : Char) : Option Nat :=
  let n := c.toNat
  if 65 ≤ n ∧ n ≤ 90 then some (n - 65)
  else if 97 ≤ n ∧ n ≤ 122 then some (n - 71)
  else if 48 ≤ n ∧ n ≤ 57 then some (n + 4)
  else if n = 45 then some 62
  else if n = 95 then some 63
  else none

/-- Byte list to sextet list, processing three bytes into four sextets, with
the unpadded remainder of one byte giving two sextets and two bytes three. -/
def encodeChunks : List Nat → List Nat
  | [] => []
  | [b0] => [b0 / 4, b0 % 4 * 16]
  | [b0, b1] => [b0 / 4, b0 % 4 * 16 + b1 / 16, b1 % 16 * 4]
  | b0 :: b1 :: b2 :: rest =>
      b0 / 4 :: (b0 % 4 * 16 + b1 / 16) :: (b1 % 16 * 4 + b2 / 64) :: b2 % 64 :: encodeChunks rest

/-- Errors of the modelled base64 decoder (the base64::DecodeError of the
crate): a character outside the alphabet, an impossible input length
(length mod 4 = 1), or nonzero trailing bits in the final digit. -/
inductive DecodeError where
  | invalidByte (c : Char)
  | invalidLength
  | invalidLastSymbol
  deriving DecidableEq, Repr

/-- Sextet list back to byte list: four sextets give three bytes; a remainder
of two or three sextets gives one or two bytes once the trailing bits are
checked to be zero; a remainder of one sextet is an invalid length. -/
def decodeChunks : List Nat → Except DecodeError (List Nat)
  | [] => .ok []
  | [_] => .error .invalidLength
  | [s0, s1] => if s1 % 16 = 0 then .ok [s0 * 4 + s1 / 16] else .error .invalidLastSymbol
  | [s0, s1, s2] =>
      if s2 % 4 = 0 then .ok [s0 * 4 + s1 / 16, s1 % 16 * 16 + s2 / 4]
      else .error .invalidLastSymbol
  | s0 :: s1 :: s2 :: s3 :: rest =>
      match decodeChunks rest with
      | .error e => .error e
      | .ok bs => .ok ((s0 * 4 + s1 / 16) :: (s1 % 16 * 16 + s2 / 4) :: (s2 % 4 * 64 + s3) :: bs)

/-- base64_url::encode of a byte sequence. -/
def b64encodeBytes (bytes : List Nat) : String :=
  String.mk ((encodeChunks bytes).map b64char)

/-- Alphabet lookup over a character list; errors at the first character
outside the alphabet. -/
def sextetsOf : List Char → Except DecodeError (List Nat)
  | [] => .ok []
  | c :: cs =>
    match charToSextet c with
    | none => .error (.invalidByte c)
    | some n =>
      match sextetsOf cs with
      | .error e => .error e
      | .ok ns => .ok (n :: ns)

/-- base64_url::decode of a string. -/
def b64decode (s : String) : Except DecodeError (List Nat) :=
  match sextetsOf s.data with
  | .error e => .error e
  | .ok ss => decodeChunks ss

/-! Embedding of src/id64.rs. -/

/-- The correlation id: a newtype over a 64-bit value (Id64 in src/id64.rs).
The wrapped Nat stands for the Rust u64; theorems carry the bound 2^64 where
it matters. -/
structure Id64 where
  val : Nat
  deriving DecidableEq, Repr

/-- u64::to_le_bytes: the eight little-endian bytes of a 64-bit value. -/
def toLeBytes (v : Nat) : List Nat :=
  [v % 256, v / 256 % 256, v / 65536 % 256, v / 16777216 % 256,
   v / 4294967296 % 256, v / 1099511627776 % 256,
   v / 281474976710656 % 256, v / 72057594037927936 % 256]

/-- u64::from_le_bytes on an 8-byte sequence (only ever applied at length 8;
the catch-all branch is unreachable under that guard). -/
def fromLeBytes : List Nat → Nat
  | [a, b, c, d, e, f, g, h] =>
      a + 256 * (b + 256 * (c + 256 * (d + 256 * (e + 256 * (f + 256 * (g + 256 * h))))))
  | _ => 0

/-- From<u64> for Id64. -/
def Id64.fromU64 (v : Nat) : Id64 := ⟨v⟩

/-- Into<u64> for Id64. -/
def Id64.toU64 (id : Id64) : Nat := id.val

/-- From<[u8; 8]> for Id64: u64::from_le_bytes. -/
def Id64.fromBytes (bytes : List Nat) : Id64 := ⟨fromLeBytes bytes⟩

/-- Into<[u8; 8]> for Id64: u64::to_le_bytes. -/
def Id64.toBytes (id : Id64) : List Nat := toLeBytes id.val

/-- Id64::as_bytes: the raw-pointer view of the u64 as 8 bytes, which on the
little-endian targets the program runs on is the little-endian byte order. -/
def Id64.asBytes (id : Id64) : List Nat := toLeBytes id.val

/-- Into<String> for Id64: base64_url::encode(self.as_bytes()). -/
def Id64.encode (id : Id64) : String := b64encodeBytes id.asBytes

/-- TryFromStrError of src/id64.rs: a wrapped base64 decode error, or the
slice-conversion error raised when the decoded byte count is not 8. -/
inductive TryFromStrError where
  | base64DecodeError (e : DecodeError)
  | tryFromSliceError
  deriving DecidableEq, Repr

/-- TryFrom<&str> for Id64: base64_url::decode, then try_into an 8-byte
array, then Id64::from (little-endian). -/
def Id64.tryFromStr (s : String) : Except TryFromStrError Id64 :=
  match b64decode s with
  | .error e => .error (.base64DecodeError e)
  | .ok bytes =>
    if bytes.length = 8 then .ok (Id64.fromBytes bytes)
    else .error .tryFromSliceError

/-! Embedding of src/main.rs: wire types and the reliable exchange. -/

/-- The Command enum of src/main.rs. -/
inductive Command where
  | Play
  | CheckAlive
  | Stop
  | Refresh
  | BackgroundRefresh
  | Build
  deriving DecidableEq, Repr

/-- Wire name of a Command, as serde_json serializes the unit variant. -/
def Command.wireName : Command → String
  | .Play => "Play"
  | .CheckAlive => "CheckAlive"
  | .Stop => "Stop"
  | .Refresh => "Refresh"
  | .BackgroundRefresh => "BackgroundRefresh"
  | .Build => "Build"

/-- The Request struct of src/main.rs: a correlation id and a command. -/
structure Request where
  id : Id64
  cmd : Command

/-- serde_json::to_vec of a Request: the id serializes through
Into<String> for Id64 (base64url text), the command as its variant name. -/
def jsonOfRequest (r : Request) : String :=
  "\x7b\"id\":\"" ++ r.id.encode ++ "\",\"cmd\":\"" ++ r.cmd.wireName ++ "\"\x7d"

/-- The Response enum of src/main.rs.  Its variants are unit variants: in
particular Error carries no payload. -/
inductive Response where
  | Success
  | Error
  | Wait
  deriving DecidableEq, Repr

/-- serde_json::from_slice for Response: the three unit variants deserialize
from their JSON string forms; anything else is a deserialization error. -/
def parseResponse (s : String) : Except String Response :=
  if s = "\"Success\"" then .ok .Success
  else if s = "\"Error\"" then .ok .Error
  else if s = "\"Wait\"" then .ok .Wait
  else .error "invalid Response JSON"

/-- Outcome of one recv_from call on the socket: a timeout (WouldBlock), a
hard I/O error, or a received datagram. -/
inductive RecvOutcome where
  | timeout
  | ioError (e : String)
  | datagram (data : String)
  deriving DecidableEq, Repr

/-- Result of send_reliable_blocking: Ok(()) or an anyhow error message. -/
inductive ExchangeResult where
  | ok
  | fail (e : String)
  deriving DecidableEq, Repr

/-- The tail of send_reliable_blocking after a Wait response (src/main.rs
lines 98-121): the read timeout is removed and exactly one more datagram is
received and deserialized; Success returns Ok, Error bails with the fixed
message, a second Wait bails as a protocol violation.  An empty or timeout
entry models a peer that never sends: the unbounded recv blocks forever. -/
def afterWait : List RecvOutcome → Option ExchangeResult
  | [] => none
  | .timeout :: _ => none
  | .ioError e :: _ => some (.fail e)
  | .datagram d :: _ =>
    match parseResponse d with
    | .error e => some (.fail e)
    | .ok .Success => some .ok
    | .ok .Error => some (.fail "Unity-side error")
    | .ok .Wait => some (.fail "Unexpected Wait response")

/-- The retry loop of send_reliable_blocking (src/main.rs lines 60-96) run
against a script of recv outcomes: each iteration sends msg then consumes one
outcome; a timeout loops (resending), an I/O error propagates, a datagram is
deserialized and dispatched, with Wait breaking to afterWait.  Returns the
list of sent messages and the result (none when the script runs out, i.e.
the call is still blocked). -/
def sendLoop (msg : String) : List RecvOutcome → List String × Option ExchangeResult
  | [] => ([msg], none)
  | .timeout :: rest =>
    let r := sendLoop msg rest
    (msg :: r.1, r.2)
  | .ioError e :: _ => ([msg], some (.fail e))
  | .datagram d :: rest =>
    match parseResponse d with
    | .error e => ([msg], some (.fail e))
    | .ok .Success => ([msg], some .ok)
    | .ok .Error => ([msg], some (.fail "Unity-side error"))
    | .ok .Wait => ([msg], afterWait rest)

/-- send_reliable_blocking: the request is serialized once, before the loop,
and the loop sends that same byte string on every iteration. -/
def sendReliableBlocking (req : Request) (script : List RecvOutcome) :
    List String × Option ExchangeResult :=
  sendLoop (jsonOfRequest req) script

/-- single_command of src/main.rs: builds one Request with one freshly drawn
random id and hands it to send_reliable_blocking.  The id parameter stands
for the single Id64::random() draw made per call. -/
def singleCommand (id : Id64) (cmd : Command) (script : List RecvOutcome) :
    List String × Option ExchangeResult :=
  sendReliableBlocking ⟨id, cmd⟩ script

/-! Embedding of the watch loop of src/main.rs (lines 146-179). -/

/-- The DebouncedEvent enum of the notify crate, as matched by the watch
loop; paths are carried but never inspected. -/
inductive DebouncedEvent where
  | noticeWrite (p : String)
  | noticeRemove (p : String)
  | create (p : String)
  | write (p : String)
  | chmod (p : String)
  | remove (p : String)
  | rename (p q : String)
  | rescan
  | fsError (e : String) (p : Option String)
  deriving DecidableEq, Repr

/-- Observable outcome of a run of the watch loop: the BackgroundRefresh
commands issued, the channel errors logged by the refresh closure, and the
fatal error that ended the loop, if any. -/
structure WatchRun where
  issued : List Command
  errLog : List String
  fatal : Option String
  deriving DecidableEq, Repr

/-- The event loop of watch (src/main.rs lines 166-179) over a finite event
script.  r n is the result of the n-th single_command(BackgroundRefresh)
issued by the refresh closure; its error is logged and otherwise ignored
(lines 153-164).  Create, Write, Remove and Rename call refresh; NoticeWrite,
NoticeRemove, Chmod and Rescan do nothing; Error ends the loop, propagating
the error.  An exhausted script leaves the loop blocked on the next event. -/
def watchLoop (r : Nat → Except String Unit) :
    List DebouncedEvent → Nat → WatchRun
  | [], _ => ⟨[], [], none⟩
  | ev :: rest, n =>
    match ev with
    | .noticeWrite _ => watchLoop r rest n
    | .noticeRemove _ => watchLoop r rest n
    | .create _ =>
      let log : List String := match r n with | .ok _ => [] | .error e => [e]
      let res := watchLoop r rest (n + 1)
      ⟨Command.BackgroundRefresh :: res.issued, log ++ res.errLog, res.fatal⟩
    | .write _ =>
      let log : List String := match r n with | .ok _ => [] | .error e => [e]
      let res := watchLoop r rest (n + 1)
      ⟨Command.BackgroundRefresh :: res.issued, log ++ res.errLog, res.fatal⟩
    | .chmod _ => watchLoop r rest n
    | .remove _ =>
      let log : List String := match r n with | .ok _ => [] | .error e => [e]
      let res := watchLoop r rest (n + 1)
      ⟨Command.BackgroundRefresh :: res.issued, log ++ res.errLog, res.fatal⟩
    | .rename _ _ =>
      let log : List String := match r n with | .ok _ => [] | .error e => [e]
      let res := watchLoop r rest (n + 1)
      ⟨Command.BackgroundRefresh :: res.issued, log ++ res.errLog, res.fatal⟩
    | .rescan => watchLoop r rest n
    | .fsError e _ => ⟨[], [], some e⟩

/-! Embedding of the subcommand dispatch in main (src/main.rs lines 232-255). -/

/-- The four one-shot subcommands dispatched by main. -/
inductive Subcommand where
  | play
  | stop
  | refresh
  | build
  deriving DecidableEq, Repr

/-- The dispatch in main: sc c is the result of single_command(c); the
question-mark operator makes the second call of the two-step operations
conditional on the first returning Ok.  Returns the single_command calls
made, in order, and the propagated result. -/
def dispatch (sc : Command → Except String Unit) :
    Subcommand → List Command × Except String Unit
  | .play =>
    match sc Command.Play with
    | .error e => ([Command.Play], .error e)
    | .ok _ => ([Command.Play, Command.CheckAlive], sc Command.CheckAlive)
  | .stop => ([Command.Stop], sc Command.Stop)
  | .refresh =>
    match sc Command.Refresh with
    | .error e => ([Command.Refresh], .error e)
    | .ok _ => ([Command.Refresh, Command.CheckAlive], sc Command.CheckAlive)
  | .build => ([Command.Build], sc Command.Build)

/-! Helper lemmas about the base64url model. -/

/-- The inverse alphabet lookup undoes the alphabet map on every sextet. -/
theorem charToSextet_b64char_fin : ∀ n : Fin 64, charToSextet (b64char n.val) = some n.val := by
  decide

/-- Nat-valued form of the alphabet inversion. -/
theorem charToSextet_b64char (n : Nat) (h : n < 64) : charToSextet (b64char n) = some n :=
  charToSextet_b64char_fin ⟨n, h⟩

/-- Mapping the alphabet over in-range sextets and looking every character
back up recovers the sextets. -/
theorem sextetsOf_map_b64char (l : List Nat) (h : ∀ n ∈ l, n < 64) :
    sextetsOf (l.map b64char) = .ok l := by
  induction l with
  | nil => rfl
  | cons a t ih =>
    have ha : a < 64 := h a (by simp)
    have ht : ∀ n ∈ t, n < 64 := fun n hn => h n (by simp [hn])
    simp only [List.map_cons, sextetsOf, charToSextet_b64char a ha, ih ht]

/-- Every sextet produced by encodeChunks from bytes is below 64. -/
theorem encodeChunks_lt (bytes : List Nat) (h : ∀ b ∈ bytes, b < 256) :
    ∀ s ∈ encodeChunks bytes, s < 64 := by
  induction bytes using encodeChunks.induct with
  | case1 => simp [encodeChunks]
  | case2 b0 =>
    have hb0 : b0 < 256 := h b0 (by simp)
    intro s hs
    simp only [encodeChunks, List.mem_cons, List.not_mem_nil, or_false] at hs
    rcases hs with rfl | rfl <;> omega
  | case3 b0 b1 =>
    have hb0 : b0 < 256 := h b0 (by simp)
    have hb1 : b1 < 256 := h b1 (by simp)
    intro s hs
    simp only [encodeChunks, List.mem_cons, List.not_mem_nil, or_false] at hs
    rcases hs with rfl | rfl | rfl <;> omega
  | case4 b0 b1 b2 rest ih =>
    have hb0 : b0 < 256 := h b0 (by simp)
    have hb1 : b1 < 256 := h b1 (by simp)
    have hb2 : b2 < 256 := h b2 (by simp)
    have hrest : ∀ b ∈ rest, b < 256 := fun b hb => h b (by simp [hb])
    intro s hs
    simp only [encodeChunks, List.mem_cons] at hs
    rcases hs with rfl | rfl | rfl | rfl | hmem
    · omega
    · omega
    · omega
    · omega
    · exact ih hrest s hmem

/-- Chunk-level base64 round trip: decoding the sextets produced from a byte
sequence recovers the bytes. -/
theorem decodeChunks_encodeChunks (bytes : List Nat) (h : ∀ b ∈ bytes, b < 256) :
    decodeChunks (encodeChunks bytes) = .ok bytes := by
  induction bytes using encodeChunks.induct with
  | case1 => rfl
  | case2 b0 =>
    have hb0 : b0 < 256 := h b0 (by simp)
    simp only [encodeChunks, decodeChunks]
    have h0 : b0 % 4 * 16 % 16 = 0 := by omega
    rw [if_pos h0]
    simp only [Except.ok.injEq, List.cons_eq_cons, and_true]
    omega
  | case3 b0 b1 =>
    have hb0 : b0 < 256 := h b0 (by simp)
    have hb1 : b1 < 256 := h b1 (by simp)
    simp only [encodeChunks, decodeChunks]
    have h0 : b1 % 16 * 4 % 4 = 0 := by omega
    rw [if_pos h0]
    simp only [Except.ok.injEq, List.cons_eq_cons, and_true]
    refine ⟨by omega, by omega⟩
  | case4 b0 b1 b2 rest ih =>
    have hb0 : b0 < 256 := h b0 (by simp)
    have hb1 : b1 < 256 := h b1 (by simp)
    have hb2 : b2 < 256 := h b2 (by simp)
    have hrest : ∀ b ∈ rest, b < 256 := fun b hb => h b (by simp [hb])
    simp only [encodeChunks, decodeChunks]
    rw [ih hrest]
    simp only [Except.ok.injEq, List.cons_eq_cons, and_true]
    refine ⟨by omega, by omega, by omega⟩

/-- The little-endian bytes of a value are bytes. -/
theorem toLeBytes_lt (v : Nat) : ∀ b ∈ toLeBytes v, b < 256 := by
  intro b hb
  simp only [toLeBytes, List.mem_cons, List.not_mem_nil, or_false] at hb
  rcases hb with rfl | rfl | rfl | rfl | rfl | rfl | rfl | rfl <;> omega

/-- Reassembling the little-endian bytes of a 64-bit value gives it back. -/
theorem fromLeBytes_toLeBytes (v : Nat) (h : v < 18446744073709551616) :
    fromLeBytes (toLeBytes v) = v := by
  simp only [toLeBytes, fromLeBytes]
  omega

/-- A character outside the alphabet anywhere in the input makes the
alphabet lookup pass fail. -/
theorem sextetsOf_error_of_invalid (l : List Char) (c : Char) (hc : c ∈ l)
    (hn : charToSextet c = none) : ∃ e, sextetsOf l = Except.error e := by
  induction l with
  | nil => cases hc
  | cons a t ih =>
    rcases List.mem_cons.mp hc with rfl | hmem
    · exact ⟨DecodeError.invalidByte c, by simp [sextetsOf, hn]⟩
    · rcases ha : charToSextet a with _ | n
      · exact ⟨DecodeError.invalidByte a, by simp [sextetsOf, ha]⟩
      · rcases ih hmem with ⟨e, he⟩
        exact ⟨e, by simp [sextetsOf, ha, he]⟩

/-! Helper lemmas about the exchange loop. -/

/-- Peeling a run of timeouts off the script: each timeout costs one resend
of the same message. -/
theorem sendLoop_timeout_replicate (msg : String) (k : Nat) (rest : List RecvOutcome) :
    sendLoop msg (List.replicate k RecvOutcome.timeout ++ rest)
      = (List.replicate k msg ++ (sendLoop msg rest).1, (sendLoop msg rest).2) := by
  induction k with
  | zero => simp
  | succ n ih => simp [List.replicate_succ, sendLoop, ih]

/-- Every message the retry loop sends is the one serialized message. -/
theorem sendLoop_sends_eq (msg : String) (script : List RecvOutcome) :
    ∀ m ∈ (sendLoop msg script).1, m = msg := by
  induction script with
  | nil => intro m hm; simpa [sendLoop] using hm
  | cons o rest ih =>
    intro m hm
    cases o with
    | timeout =>
      simp only [sendLoop, List.mem_cons] at hm
      rcases hm with rfl | hm
      · rfl
      · exact ih m hm
    | ioError e => simpa [sendLoop] using hm
    | datagram d =>
      rcases hp : parseResponse d with e | r
      · simp only [sendLoop, hp] at hm
        simpa using hm
      · cases r <;> simp only [sendLoop, hp] at hm <;> simpa using hm

/-! Claim theorems. -/

/-- Claim C5: for every 64-bit correlation id value, encoding it to its
URL-safe text form (Into<String> for Id64) and then decoding that text
(TryFrom<&str> for Id64) yields the original id. -/
theorem id64_encode_decode_roundtrip (v : Nat) (h : v < 18446744073709551616) :
    Id64.tryFromStr (Id64.encode ⟨v⟩) = .ok ⟨v⟩ := by
  have hb : ∀ b ∈ toLeBytes v, b < 256 := toLeBytes_lt v
  have hs : ∀ s ∈ encodeChunks (toLeBytes v), s < 64 := encodeChunks_lt _ hb
  have hdata : (Id64.encode ⟨v⟩).data = (encodeChunks (toLeBytes v)).map b64char := rfl
  have hdec : b64decode (Id64.encode ⟨v⟩) = .ok (toLeBytes v) := by
    rw [b64decode, hdata, sextetsOf_map_b64char _ hs]
    exact decodeChunks_encodeChunks _ hb
  have hlen : (toLeBytes v).length = 8 := rfl
  simp only [Id64.tryFromStr, hdec, hlen, if_true]
  simp only [Id64.fromBytes, fromLeBytes_toLeBytes v h]

/-- Witness for C5 at a concrete 64-bit value. -/
theorem id64_encode_decode_roundtrip_witness :
    81985529216486895 < 18446744073709551616 ∧
    Id64.tryFromStr (Id64.encode ⟨81985529216486895⟩) = .ok ⟨81985529216486895⟩ :=
  ⟨by norm_num, id64_encode_decode_roundtrip 81985529216486895 (by norm_num)⟩

/-- Claim C6: decoding a correlation id string fails with the wrapped base64
decode error when a character lies outside the base64url alphabet, fails with
the slice-conversion (invalid length) error when the base64 layer decodes
successfully to a byte count other than 8, and succeeds only on valid
encodings of exactly 8 bytes. -/
theorem id64_decode_error_classification :
    (∀ s c, c ∈ s.data → charToSextet c = none →
        ∃ e, Id64.tryFromStr s = .error (TryFromStrError.base64DecodeError e)) ∧
    (∀ s bytes, b64decode s = .ok bytes → bytes.length ≠ 8 →
        Id64.tryFromStr s = .error TryFromStrError.tryFromSliceError) ∧
    (∀ s id, Id64.tryFromStr s = .ok id →
        ∃ bytes, b64decode s = .ok bytes ∧ bytes.length = 8 ∧ id = Id64.fromBytes bytes) := by
  refine ⟨?_, ?_, ?_⟩
  · intro s c hc hn
    rcases sextetsOf_error_of_invalid s.data c hc hn with ⟨e, he⟩
    exact ⟨e, by rw [Id64.tryFromStr, b64decode, he]⟩
  · intro s bytes hok hne
    simp only [Id64.tryFromStr, hok]
    rw [if_neg hne]
  · intro s id hok
    rcases hd : b64decode s with e | bytes
    · simp [Id64.tryFromStr, hd] at hok
    · simp only [Id64.tryFromStr, hd] at hok
      by_cases hlen : bytes.length = 8
      · rw [if_pos hlen] at hok
        exact ⟨bytes, rfl, hlen, ((Except.ok.injEq _ _).mp hok).symm⟩
      · rw [if_neg hlen] at hok
        simp at hok

/-- Witness for C6: a character outside the alphabet, a valid 3-byte
decoding rejected for its length, and a successful decode of 8 bytes. -/
theorem id64_decode_error_classification_witness :
    (Char.ofNat 36 ∈ "$".data ∧ charToSextet (Char.ofNat 36) = none ∧
      ∃ e, Id64.tryFromStr "$" = .error (TryFromStrError.base64DecodeError e)) ∧
    (b64decode "AAAA" = .ok [0, 0, 0] ∧ ([0, 0, 0] : List Nat).length ≠ 8 ∧
      Id64.tryFromStr "AAAA" = .error TryFromStrError.tryFromSliceError) ∧
    (Id64.tryFromStr "AAAAAAAAAAA" = .ok ⟨0⟩ ∧
      ∃ bytes, b64decode "AAAAAAAAAAA" = .ok bytes ∧ bytes.length = 8 ∧
        (⟨0⟩ : Id64) = Id64.fromBytes bytes) :=
  ⟨⟨by decide, by decide,
    id64_decode_error_classification.1 "$" (Char.ofNat 36) (by decide) (by decide)⟩,
   ⟨rfl, by decide,
    id64_decode_error_classification.2.1 "AAAA" [0, 0, 0] rfl (by decide)⟩,
   ⟨rfl,
    id64_decode_error_classification.2.2 "AAAAAAAAAAA" ⟨0⟩ rfl⟩⟩

/-- Claim C10: the numeric and byte-array conversions of Id64 are mutually
inverse; the byte conversions fix little-endian order, so the id obtained
from an 8-byte array equals u64::from_le_bytes of that array. -/
theorem id64_conversions_roundtrip :
    (∀ v : Nat, v < 18446744073709551616 → Id64.toU64 (Id64.fromU64 v) = v) ∧
    (∀ b : List Nat, b.length = 8 → (∀ x ∈ b, x < 256) →
        Id64.toBytes (Id64.fromBytes b) = b) ∧
    (∀ b : List Nat, Id64.toU64 (Id64.fromBytes b) = fromLeBytes b) := by
  refine ⟨fun v _ => rfl, ?_, fun b => rfl⟩
  intro b hlen hlt
  rcases b with _ | ⟨x0, b⟩
  · simp at hlen
  rcases b with _ | ⟨x1, b⟩
  · simp at hlen
  rcases b with _ | ⟨x2, b⟩
  · simp at hlen
  rcases b with _ | ⟨x3, b⟩
  · simp at hlen
  rcases b with _ | ⟨x4, b⟩
  · simp at hlen
  rcases b with _ | ⟨x5, b⟩
  · simp at hlen
  rcases b with _ | ⟨x6, b⟩
  · simp at hlen
  rcases b with _ | ⟨x7, b⟩
  · simp at hlen
  rcases b with _ | ⟨x8, b⟩
  · have h0 : x0 < 256 := hlt x0 (by simp)
    have h1 : x1 < 256 := hlt x1 (by simp)
    have h2 : x2 < 256 := hlt x2 (by simp)
    have h3 : x3 < 256 := hlt x3 (by simp)
    have h4 : x4 < 256 := hlt x4 (by simp)
    have h5 : x5 < 256 := hlt x5 (by simp)
    have h6 : x6 < 256 := hlt x6 (by simp)
    have h7 : x7 < 256 := hlt x7 (by simp)
    simp only [Id64.toBytes, Id64.fromBytes, fromLeBytes, toLeBytes,
      List.cons_eq_cons, and_true]
    refine ⟨by omega, by omega, by omega, by omega, by omega, by omega, by omega, by omega⟩
  · simp at hlen

/-- Witness for C10 at a concrete value and a concrete byte array. -/
theorem id64_conversions_roundtrip_witness :
    (5 < 18446744073709551616 ∧ Id64.toU64 (Id64.fromU64 5) = 5) ∧
    (([1, 2, 3, 4, 5, 6, 7, 8] : List Nat).length = 8 ∧
      (∀ x ∈ ([1, 2, 3, 4, 5, 6, 7, 8] : List Nat), x < 256) ∧
      Id64.toBytes (Id64.fromBytes [1, 2, 3, 4, 5, 6, 7, 8]) = [1, 2, 3, 4, 5, 6, 7, 8]) :=
  ⟨⟨by norm_num, id64_conversions_roundtrip.1 5 (by norm_num)⟩,
   ⟨by decide, by decide,
    id64_conversions_roundtrip.2.1 [1, 2, 3, 4, 5, 6, 7, 8] (by decide) (by decide)⟩⟩

/-- Claim C1: after a Wait response the loop performs no further send and
switches to a single unbounded receive, returning Ok when that one response
is Success; for a peer replying Wait then Success the whole exchange returns
Ok having sent exactly once.  Stated over any run of k timeouts before the
Wait: the sends are exactly the k+1 made before Wait arrived, and the rest
of the exchange is afterWait on the remaining script, which consumes only
its first entry and succeeds on Success. -/
theorem sendReliable_wait_then_terminal :
    (∀ req k rest,
        sendReliableBlocking req (List.replicate k RecvOutcome.timeout ++
            RecvOutcome.datagram "\"Wait\"" :: rest)
          = (List.replicate (k + 1) (jsonOfRequest req), afterWait rest)) ∧
    (∀ rest, afterWait (RecvOutcome.datagram "\"Success\"" :: rest) = some ExchangeResult.ok) ∧
    (∀ req, sendReliableBlocking req
        [RecvOutcome.datagram "\"Wait\"", RecvOutcome.datagram "\"Success\""]
          = ([jsonOfRequest req], some ExchangeResult.ok)) := by
  refine ⟨?_, fun rest => rfl, fun req => rfl⟩
  intro req k rest
  rw [sendReliableBlocking, sendLoop_timeout_replicate]
  have hwait : sendLoop (jsonOfRequest req) (RecvOutcome.datagram "\"Wait\"" :: rest)
      = ([jsonOfRequest req], afterWait rest) := rfl
  rw [hwait]
  simp [List.replicate_succ']

/-- Claim C2: single_command serializes one Request with its one fresh id,
and the retry loop resends that byte-identical message on every timeout; a
run of k timeouts followed by a Success response makes exactly k+1 sends of
the same serialized Request and returns Ok. -/
theorem singleCommand_fresh_id_identical_resends :
    (∀ id cmd script m, m ∈ (singleCommand id cmd script).1 → m = jsonOfRequest ⟨id, cmd⟩) ∧
    (∀ id cmd k rest,
        singleCommand id cmd (List.replicate k RecvOutcome.timeout ++
            RecvOutcome.datagram "\"Success\"" :: rest)
          = (List.replicate (k + 1) (jsonOfRequest ⟨id, cmd⟩), some ExchangeResult.ok)) := by
  constructor
  · intro id cmd script m hm
    exact sendLoop_sends_eq (jsonOfRequest ⟨id, cmd⟩) script m hm
  · intro id cmd k rest
    rw [singleCommand, sendReliableBlocking, sendLoop_timeout_replicate]
    have hsucc : sendLoop (jsonOfRequest ⟨id, cmd⟩)
        (RecvOutcome.datagram "\"Success\"" :: rest)
          = ([jsonOfRequest ⟨id, cmd⟩], some ExchangeResult.ok) := rfl
    rw [hsucc]
    simp [List.replicate_succ']

/-- Witness for C2 at a concrete id, command and script. -/
theorem singleCommand_fresh_id_identical_resends_witness :
    jsonOfRequest ⟨⟨0⟩, Command.Play⟩ ∈ (singleCommand ⟨0⟩ Command.Play []).1 ∧
    jsonOfRequest ⟨⟨0⟩, Command.Play⟩ = jsonOfRequest ⟨⟨0⟩, Command.Play⟩ :=
  ⟨List.mem_singleton.mpr rfl,
   singleCommand_fresh_id_identical_resends.1 ⟨0⟩ Command.Play []
     (jsonOfRequest ⟨⟨0⟩, Command.Play⟩) (List.mem_singleton.mpr rfl)⟩

/-- Claim C3: protocol violations end the exchange with an error and are
never retried: a second Wait after the Wait produces the protocol-violation
error with no further send or receive, and a response that does not
deserialize to a Response value errors immediately, in both phases, with the
remaining script untouched. -/
theorem sendReliable_protocol_violations_terminal :
    (∀ rest, afterWait (RecvOutcome.datagram "\"Wait\"" :: rest)
        = some (ExchangeResult.fail "Unexpected Wait response")) ∧
    (∀ msg d e rest, parseResponse d = .error e →
        sendLoop msg (RecvOutcome.datagram d :: rest)
          = ([msg], some (ExchangeResult.fail e))) ∧
    (∀ d e rest, parseResponse d = .error e →
        afterWait (RecvOutcome.datagram d :: rest) = some (ExchangeResult.fail e)) := by
  refine ⟨fun rest => rfl, ?_, ?_⟩
  · intro msg d e rest hp
    simp only [sendLoop, hp]
  · intro d e rest hp
    simp only [afterWait, hp]

/-- Witness for C3 applying the deserialization-failure parts at a message
that is not a Response encoding. -/
theorem sendReliable_protocol_violations_terminal_witness :
    parseResponse "bogus" = .error "invalid Response JSON" ∧
    sendLoop "m" [RecvOutcome.datagram "bogus"]
      = (["m"], some (ExchangeResult.fail "invalid Response JSON")) ∧
    afterWait [RecvOutcome.datagram "bogus"]
      = some (ExchangeResult.fail "invalid Response JSON") :=
  ⟨rfl,
   sendReliable_protocol_violations_terminal.2.1 "m" "bogus" "invalid Response JSON" [] rfl,
   sendReliable_protocol_violations_terminal.2.2 "bogus" "invalid Response JSON" [] rfl⟩

/-- Claim C4 counterexample: a stop command against a peer replying Error is
reported with the fixed message, which does not contain the peer reason
"busy" of the spec scenario — Response::Error carries no reason string, so
no peer diagnostic can be surfaced verbatim. -/
theorem response_error_reason_counterexample :
    singleCommand ⟨0⟩ Command.Stop [RecvOutcome.datagram "\"Error\""]
      = ([jsonOfRequest ⟨⟨0⟩, Command.Stop⟩], some (ExchangeResult.fail "Unity-side error")) ∧
    ¬ ("busy".data <:+: "Unity-side error".data) :=
  ⟨rfl, by decide⟩

/-- Claim C4 as amended: when the peer replies Error the exchange ends as a
terminal error for that command, whose message is the fixed string
"Unity-side error" in both the retry phase and the after-Wait phase; the
unit variant Response::Error carries no reason, so none is included. -/
theorem response_error_fixed_message :
    (∀ msg rest, sendLoop msg (RecvOutcome.datagram "\"Error\"" :: rest)
        = ([msg], some (ExchangeResult.fail "Unity-side error"))) ∧
    (∀ rest, afterWait (RecvOutcome.datagram "\"Error\"" :: rest)
        = some (ExchangeResult.fail "Unity-side error")) :=
  ⟨fun _ _ => rfl, fun _ => rfl⟩

/-- Claim C7: in the watch loop, creation, write, removal and rename events
each trigger exactly one BackgroundRefresh command, while notice-write,
notice-remove, attribute-change and rescan events trigger none, whatever the
refresh results are. -/
theorem watch_event_classification :
    ∀ r n p q,
      (watchLoop r [DebouncedEvent.create p] n).issued = [Command.BackgroundRefresh] ∧
      (watchLoop r [DebouncedEvent.write p] n).issued = [Command.BackgroundRefresh] ∧
      (watchLoop r [DebouncedEvent.remove p] n).issued = [Command.BackgroundRefresh] ∧
      (watchLoop r [DebouncedEvent.rename p q] n).issued = [Command.BackgroundRefresh] ∧
      (watchLoop r [DebouncedEvent.noticeWrite p] n).issued = [] ∧
      (watchLoop r [DebouncedEvent.noticeRemove p] n).issued = [] ∧
      (watchLoop r [DebouncedEvent.chmod p] n).issued = [] ∧
      (watchLoop r [DebouncedEvent.rescan] n).issued = [] := by
  intro r n p q
  refine ⟨rfl, rfl, rfl, rfl, rfl, rfl, rfl, rfl⟩

/-- Claim C8: the watch loop is never stopped by a failed BackgroundRefresh:
the commands issued and the fate of the loop are the same whatever the refresh
results, a script with no filesystem error event never terminates the loop
with an error, and the loop ends with exactly the error of the first
filesystem error event, which propagates out. -/
theorem watch_loop_resilience :
    (∀ r r' evs n n',
        (watchLoop r evs n).issued = (watchLoop r' evs n').issued ∧
        (watchLoop r evs n).fatal = (watchLoop r' evs n').fatal) ∧
    (∀ r evs n, (∀ e p, DebouncedEvent.fsError e p ∉ evs) →
        (watchLoop r evs n).fatal = none) ∧
    (∀ r pre e p rest n, (∀ e' p', DebouncedEvent.fsError e' p' ∉ pre) →
        (watchLoop r (pre ++ DebouncedEvent.fsError e p :: rest) n).fatal = some e) := by
  refine ⟨?_, ?_, ?_⟩
  · intro r r' evs
    induction evs with
    | nil => intro n n'; exact ⟨rfl, rfl⟩
    | cons ev rest ih =>
      intro n n'
      cases ev with
      | noticeWrite p => exact ih n n'
      | noticeRemove p => exact ih n n'
      | chmod p => exact ih n n'
      | rescan => exact ih n n'
      | fsError e p => exact ⟨rfl, rfl⟩
      | create p =>
        exact ⟨by simp only [watchLoop]; rw [(ih (n + 1) (n' + 1)).1],
               by simp only [watchLoop]; rw [(ih (n + 1) (n' + 1)).2]⟩
      | write p =>
        exact ⟨by simp only [watchLoop]; rw [(ih (n + 1) (n' + 1)).1],
               by simp only [watchLoop]; rw [(ih (n + 1) (n' + 1)).2]⟩
      | remove p =>
        exact ⟨by simp only [watchLoop]; rw [(ih (n + 1) (n' + 1)).1],
               by simp only [watchLoop]; rw [(ih (n + 1) (n' + 1)).2]⟩
      | rename p q =>
        exact ⟨by simp only [watchLoop]; rw [(ih (n + 1) (n' + 1)).1],
               by simp only [watchLoop]; rw [(ih (n + 1) (n' + 1)).2]⟩
  · intro r evs
    induction evs with
    | nil => intro n h; rfl
    | cons ev rest ih =>
      intro n h
      have hrest : ∀ e p, DebouncedEvent.fsError e p ∉ rest := fun e p hmem =>
        h e p (List.mem_cons_of_mem _ hmem)
      cases ev with
      | fsError e p => exact absurd (List.mem_cons_self _ _) (h e p)
      | noticeWrite p => exact ih _ hrest
      | noticeRemove p => exact ih _ hrest
      | create p => simpa only [watchLoop] using ih _ hrest
      | write p => simpa only [watchLoop] using ih _ hrest
      | chmod p => exact ih _ hrest
      | remove p => simpa only [watchLoop] using ih _ hrest
      | rename p q => simpa only [watchLoop] using ih _ hrest
      | rescan => exact ih _ hrest
  · intro r pre e p rest
    induction pre with
    | nil => intro n h; rfl
    | cons ev t ih =>
      intro n h
      have ht : ∀ e' p', DebouncedEvent.fsError e' p' ∉ t := fun e' p' hmem =>
        h e' p' (List.mem_cons_of_mem _ hmem)
      cases ev with
      | fsError e' p' => exact absurd (List.mem_cons_self _ _) (h e' p')
      | noticeWrite q => exact ih _ ht
      | noticeRemove q => exact ih _ ht
      | create q => simpa only [watchLoop] using ih _ ht
      | write q => simpa only [watchLoop] using ih _ ht
      | chmod q => exact ih _ ht
      | remove q => simpa only [watchLoop] using ih _ ht
      | rename q q' => simpa only [watchLoop] using ih _ ht
      | rescan => exact ih _ ht

/-- Witness for C8: a failing refresh does not end the loop on a change
event, and a filesystem error event does end it with that error. -/
theorem watch_loop_resilience_witness :
    (∀ e p, DebouncedEvent.fsError e p ∉ [DebouncedEvent.create "a"]) ∧
    (watchLoop (fun _ => Except.error "boom") [DebouncedEvent.create "a"] 0).fatal = none ∧
    (∀ e' p', DebouncedEvent.fsError e' p' ∉ [DebouncedEvent.write "b"]) ∧
    (watchLoop (fun _ => Except.error "boom")
        ([DebouncedEvent.write "b"] ++ DebouncedEvent.fsError "fatal fs error" none :: [])
        0).fatal = some "fatal fs error" :=
  ⟨fun e p hmem => by simp at hmem,
   watch_loop_resilience.2.1 (fun _ => Except.error "boom") [DebouncedEvent.create "a"] 0
     (fun e p hmem => by simp at hmem),
   fun e' p' hmem => by simp at hmem,
   watch_loop_resilience.2.2 (fun _ => Except.error "boom") [DebouncedEvent.write "b"]
     "fatal fs error" none [] 0 (fun e' p' hmem => by simp at hmem)⟩

/-- Claim C9: the dispatcher maps stop and build onto a single
send-and-await of their command, and refresh and play onto their command
followed by CheckAlive, the second call made only when the first returned
success; errors of the first call propagate with no second call. -/
theorem dispatch_channel_calls :
    ∀ sc : Command → Except String Unit,
      dispatch sc Subcommand.stop = ([Command.Stop], sc Command.Stop) ∧
      dispatch sc Subcommand.build = ([Command.Build], sc Command.Build) ∧
      (sc Command.Refresh = .ok () →
        dispatch sc Subcommand.refresh
          = ([Command.Refresh, Command.CheckAlive], sc Command.CheckAlive)) ∧
      (∀ e, sc Command.Refresh = .error e →
        dispatch sc Subcommand.refresh = ([Command.Refresh], .error e)) ∧
      (sc Command.Play = .ok () →
        dispatch sc Subcommand.play
          = ([Command.Play, Command.CheckAlive], sc Command.CheckAlive)) ∧
      (∀ e, sc Command.Play = .error e →
        dispatch sc Subcommand.play = ([Command.Play], .error e)) := by
  intro sc
  refine ⟨rfl, rfl, ?_, ?_, ?_, ?_⟩
  · intro h; simp only [dispatch, h]
  · intro e h; simp only [dispatch, h]
  · intro h; simp only [dispatch, h]
  · intro e h; simp only [dispatch, h]

/-- Witness for C9 at an all-ok channel and an all-failing channel. -/
theorem dispatch_channel_calls_witness :
    ((fun _ => (Except.ok () : Except String Unit)) Command.Refresh = Except.ok () ∧
      dispatch (fun _ => (Except.ok () : Except String Unit)) Subcommand.refresh
        = ([Command.Refresh, Command.CheckAlive],
           (fun _ => (Except.ok () : Except String Unit)) Command.CheckAlive)) ∧
    ((fun _ => (Except.error "down" : Except String Unit)) Command.Play
        = Except.error "down" ∧
      dispatch (fun _ => (Except.error "down" : Except String Unit)) Subcommand.play
        = ([Command.Play], Except.error "down")) :=
  ⟨⟨rfl, (dispatch_channel_calls (fun _ => (Except.ok () : Except String Unit))).2.2.1 rfl⟩,
   ⟨rfl, (dispatch_channel_calls
      (fun _ => (Except.error "down" : Except String Unit))).2.2.2.2.2 "down" rfl⟩⟩

end Uwu
